import Mathlib

/-!
Verification of the directory-traversal-and-copy core of `antig` (src/main.rs).

The development shallowly embeds the two cooperating routines of the core:
`visit_dir` (generic recursive traversal with an exclusion path, src lines
128-167), `get_files_count_recursive` (the background counter, lines 169-198),
the per-file copy visitor of `copy_directory_recursive` (lines 228-327), the
mirrored-destination-root computation (lines 208-226), and the orchestration
in `main` (lines 32-126).

Filesystem trees are modelled as finite rose trees; canonical paths are lists
of path components (the model has no symlinks, so the canonical form of a
child is its parent's canonical path with the child's name appended, exactly
what `Path::canonicalize` yields for symlink-free absolute paths).
-/

namespace Antig

/-- A node of the filesystem tree seen by the traversal.  `brokenDir` is a
directory whose listing (`fs::read_dir`) fails, used to model I/O errors
during a walk. -/
inductive FsTree where
  | file (name : String) (size : Nat)
  | dir (name : String) (children : List FsTree)
  | brokenDir (name : String)
deriving Repr

/-- The file name of an entry, as returned by the directory listing. -/
def FsTree.name : FsTree → String
  | .file n _ => n
  | .dir n _ => n
  | .brokenDir n => n

/-- One visitor invocation performed by `visit_dir`: `enterDir p` is a call of
the directory callback `g` on the entry with canonical path `p` (source line
158), `file p sz` is a call of the file callback `f` (line 162). -/
inductive Event where
  | enterDir (path : List String)
  | file (path : List String) (size : Nat)
deriving DecidableEq, Repr

/-- The canonical path of the entry a visitor invocation was made on. -/
def Event.path : Event → List String
  | .enterDir p => p
  | .file p _ => p

/-- Whether the invocation was of the per-file callback `f`. -/
def Event.isFile : Event → Bool
  | .enterDir _ => false
  | .file _ _ => true

/-- How a walk ends abnormally: `ioError` models a failed directory listing
propagated with `?` (source line 135), `unwrapPanic` models the `g.unwrap()`
panic at line 158 when no directory callback was supplied. -/
inductive Failure where
  | ioError
  | unwrapPanic
deriving DecidableEq, Repr

mutual

/-- The body of the `for entry in fs::read_dir(dir)` loop of `visit_dir`
(source lines 156-163) for one non-skipped child `t` of the directory at
canonical path `path`: a file child triggers `f` (one `file` event); a
directory child first triggers `g.unwrap()` when `CREATE_DIR` holds (an
`enterDir` event, or an `unwrapPanic` failure when `g` is `none`) and is then
recursed into; a `brokenDir` child fails when its own listing is attempted. -/
def visitEntry (createDir : Bool) (g : Option Unit) (excl path : List String) :
    FsTree → List Event × Option Failure
  | .file n sz => ([Event.file (path ++ [n]) sz], none)
  | .dir n cs =>
    if createDir ∧ g = none then ([], some .unwrapPanic)
    else
      let inner := visitChildren createDir g excl (path ++ [n]) cs
      if createDir then (Event.enterDir (path ++ [n]) :: inner.1, inner.2)
      else inner
  | .brokenDir n =>
    if createDir ∧ g = none then ([], some .unwrapPanic)
    else if createDir then ([Event.enterDir (path ++ [n])], some .ioError)
    else ([], some .ioError)

/-- The `for` loop of `visit_dir` (source lines 135-164) over the children of
the directory at canonical path `path`.  Each child's canonical path is
`path ++ [name]`; if that equals the canonical form `excl` of the exclusion
path the child is skipped entirely (`continue`, line 153).  The walk stops at
the first failure, mirroring the `?` propagation.  Visitor callbacks are
modelled as total: the events are the invocations the walker performs. -/
def visitChildren (createDir : Bool) (g : Option Unit) (excl path : List String) :
    List FsTree → List Event × Option Failure
  | [] => ([], none)
  | t :: ts =>
    if path ++ [t.name] = excl then
      visitChildren createDir g excl path ts
    else
      let first := visitEntry createDir g excl path t
      match first.2 with
      | some f => (first.1, some f)
      | none =>
        let rest := visitChildren createDir g excl path ts
        (first.1 ++ rest.1, rest.2)

end

/-- `visit_dir` (source lines 128-167).  `root` is the object at canonical
path `rootPath` (`none` when the path does not exist).  The `dir.is_dir()`
guard at line 134 makes the walk a no-op for anything that is not a
directory; a `brokenDir` root fails when its listing is attempted. -/
def visit_dir (createDir : Bool) (g : Option Unit) (root : Option FsTree)
    (rootPath excl : List String) : List Event × Option Failure :=
  match root with
  | some (.dir _ cs) => visitChildren createDir g excl rootPath cs
  | some (.brokenDir _) => ([], some .ioError)
  | _ => ([], none)

/-- A prefix of `t ++ [a]` is a prefix of `t` or the whole list. -/
theorem prefix_snoc_cases {α : Type _} {l t : List α} {a : α}
    (h : l <+: t ++ [a]) : l <+: t ∨ l = t ++ [a] := by
  rcases h with ⟨u, hu⟩
  rcases List.eq_nil_or_concat u with rfl | ⟨u', b, rfl⟩
  · exact Or.inr (by simpa using hu)
  · refine Or.inl ⟨u', ?_⟩
    have h2 : (l ++ u').concat b = t.concat a := by
      simpa [List.concat_eq_append, List.append_assoc] using hu
    exact (List.concat_inj.mp h2).1

/-- Every visitor invocation performed below a directory is on an entry whose
canonical path properly extends that directory's canonical path (first by the
entry's own name for `visitEntry`). -/
theorem visit_paths (createDir : Bool) (g : Option Unit) (excl : List String) :
    ∀ (path : List String) (ts : List FsTree),
      ∀ e ∈ (visitChildren createDir g excl path ts).1,
        ∃ n u, Event.path e = path ++ n :: u := by
  refine visitChildren.induct createDir g excl
    (fun path t => ∀ e ∈ (visitEntry createDir g excl path t).1,
      ∃ u, Event.path e = path ++ t.name :: u)
    (fun path ts => ∀ e ∈ (visitChildren createDir g excl path ts).1,
      ∃ n u, Event.path e = path ++ n :: u)
    ?_ ?_ ?_ ?_ ?_ ?_ ?_ ?_ ?_ ?_ ?_
  · intro path n sz e he
    simp [visitEntry] at he
    exact ⟨[], by simp [he, Event.path, FsTree.name]⟩
  · intro path n cs hpg e he
    simp [visitEntry, hpg.1, hpg.2] at he
  · intro path n cs hpg hc ih e he
    simp only [visitEntry, if_neg hpg, if_pos hc, List.mem_cons] at he
    rcases he with rfl | he
    · exact ⟨[], by simp [Event.path, FsTree.name]⟩
    · rcases ih e he with ⟨n', u', hp⟩
      exact ⟨n' :: u', by simp [hp, FsTree.name]⟩
  · intro path n cs hpg hc ih e he
    simp only [visitEntry, if_neg hpg, if_neg hc] at he
    rcases ih e he with ⟨n', u', hp⟩
    exact ⟨n' :: u', by simp [hp, FsTree.name]⟩
  · intro path n hpg e he
    simp [visitEntry, hpg.1, hpg.2] at he
  · intro path n hpg hc e he
    simp only [visitEntry, if_neg hpg, if_pos hc, List.mem_singleton] at he
    exact ⟨[], by simp [he, Event.path, FsTree.name]⟩
  · intro path n hpg hc e he
    simp only [visitEntry, if_neg hpg, if_neg hc] at he
    simp at he
  · intro path e he
    simp [visitChildren] at he
  · intro path t ts hskip ih e he
    rw [visitChildren, if_pos hskip] at he
    exact ih e he
  · intro path t ts hskip first f hf ih e he
    have hf' : (visitEntry createDir g excl path t).2 = some f := hf
    rw [visitChildren, if_neg hskip] at he
    simp only [hf'] at he
    rcases ih e he with ⟨u, hp⟩
    exact ⟨t.name, u, hp⟩
  · intro path t ts hskip first hf ih1 ih2 e he
    have hf' : (visitEntry createDir g excl path t).2 = none := hf
    rw [visitChildren, if_neg hskip] at he
    simp only [hf', List.mem_append] at he
    rcases he with he | he
    · rcases ih1 e he with ⟨u, hp⟩
      exact ⟨t.name, u, hp⟩
    · exact ih2 e he

/-- Exclusion invariant of the walk: as long as the canonical exclusion path
`excl` is not a prefix of the canonical path of the directory being listed, no
visitor invocation is made on an entry whose canonical path has `excl` as a
prefix — the `continue` at source line 153 cuts off exactly the subtree rooted
at the excluded path. -/
theorem visit_excl (createDir : Bool) (g : Option Unit) (excl : List String) :
    ∀ (path : List String) (ts : List FsTree), ¬ excl <+: path →
      ∀ e ∈ (visitChildren createDir g excl path ts).1, ¬ excl <+: Event.path e := by
  refine visitChildren.induct createDir g excl
    (fun path t => ¬ excl <+: path → path ++ [t.name] ≠ excl →
      ∀ e ∈ (visitEntry createDir g excl path t).1, ¬ excl <+: Event.path e)
    (fun path ts => ¬ excl <+: path →
      ∀ e ∈ (visitChildren createDir g excl path ts).1, ¬ excl <+: Event.path e)
    ?_ ?_ ?_ ?_ ?_ ?_ ?_ ?_ ?_ ?_ ?_
  · intro path n sz hpath hne e he
    simp [visitEntry] at he
    subst he
    simp only [Event.path]
    intro hpre
    rcases prefix_snoc_cases hpre with h | h
    · exact hpath h
    · exact hne (by simp [FsTree.name, h.symm])
  · intro path n cs hpg hpath hne e he
    simp [visitEntry, hpg.1, hpg.2] at he
  · intro path n cs hpg hc ih hpath hne e he
    have hsub : ¬ excl <+: path ++ [n] := by
      intro hpre
      rcases prefix_snoc_cases hpre with h | h
      · exact hpath h
      · exact hne (by simp [FsTree.name, h.symm])
    simp only [visitEntry, if_neg hpg, if_pos hc, List.mem_cons] at he
    rcases he with rfl | he
    · simpa [Event.path] using hsub
    · exact ih (by simpa [FsTree.name] using hsub) e he
  · intro path n cs hpg hc ih hpath hne e he
    have hsub : ¬ excl <+: path ++ [n] := by
      intro hpre
      rcases prefix_snoc_cases hpre with h | h
      · exact hpath h
      · exact hne (by simp [FsTree.name, h.symm])
    simp only [visitEntry, if_neg hpg, if_neg hc] at he
    exact ih (by simpa [FsTree.name] using hsub) e he
  · intro path n hpg hpath hne e he
    simp [visitEntry, hpg.1, hpg.2] at he
  · intro path n hpg hc hpath hne e he
    simp only [visitEntry, if_neg hpg, if_pos hc, List.mem_singleton] at he
    subst he
    simp only [Event.path]
    intro hpre
    rcases prefix_snoc_cases hpre with h | h
    · exact hpath h
    · exact hne (by simp [FsTree.name, h.symm])
  · intro path n hpg hc hpath hne e he
    simp only [visitEntry, if_neg hpg, if_neg hc] at he
    simp at he
  · intro path hpath e he
    simp [visitChildren] at he
  · intro path t ts hskip ih hpath e he
    rw [visitChildren, if_pos hskip] at he
    exact ih hpath e he
  · intro path t ts hskip first f hf ih hpath e he
    have hf' : (visitEntry createDir g excl path t).2 = some f := hf
    rw [visitChildren, if_neg hskip] at he
    simp only [hf'] at he
    exact ih hpath hskip e he
  · intro path t ts hskip first hf ih1 ih2 hpath e he
    have hf' : (visitEntry createDir g excl path t).2 = none := hf
    rw [visitChildren, if_neg hskip] at he
    simp only [hf', List.mem_append] at he
    rcases he with he | he
    · exact ih1 hpath hskip e he
    · exact ih2 hpath e he

/-- C3: during any traversal (count mode or copy mode), a child whose
canonical path equals the canonical exclusion path (the destination) receives
no visitor invocation and is not recursed into: provided the excluded path is
not a prefix of the walk's root, no invocation ever touches the excluded path
or anything below it, so a destination nested inside the source tree is never
walked or copied into itself. -/
theorem c3_exclusion (createDir : Bool) (g : Option Unit) (root : Option FsTree)
    (rootPath excl : List String) (h : ¬ excl <+: rootPath) :
    ∀ e ∈ (visit_dir createDir g root rootPath excl).1, ¬ excl <+: Event.path e := by
  intro e he
  match root with
  | none => simp [visit_dir] at he
  | some (.file n sz) => simp [visit_dir] at he
  | some (.brokenDir n) => simp [visit_dir] at he
  | some (.dir n cs) => exact visit_excl createDir g excl rootPath cs h e he

/-- Witness for `c3_exclusion`: a destination directory `D` nested directly
inside the walked source tree is skipped — only the file outside it is
visited. -/
theorem c3_exclusion_witness :
    (¬ ["src", "D"] <+: ["src"])
    ∧ ∀ e ∈ (visit_dir true (some ())
        (some (.dir "src" [.file "a" 1, .dir "D" [.file "secret" 9]]))
        ["src"] ["src", "D"]).1, ¬ ["src", "D"] <+: Event.path e := by
  constructor
  · decide
  · exact c3_exclusion true (some ())
      (some (.dir "src" [.file "a" 1, .dir "D" [.file "secret" 9]]))
      ["src"] ["src", "D"] (by decide)

/-- In count mode (`CREATE_DIR = false`) the walker only ever invokes the
per-file callback: no `enterDir` invocation is performed (the `if CREATE_DIR`
at source line 157 is never entered). -/
theorem visit_count_mode (g : Option Unit) (excl : List String) :
    ∀ (path : List String) (ts : List FsTree),
      ∀ e ∈ (visitChildren false g excl path ts).1, Event.isFile e = true := by
  refine visitChildren.induct false g excl
    (fun path t => ∀ e ∈ (visitEntry false g excl path t).1, Event.isFile e = true)
    (fun path ts => ∀ e ∈ (visitChildren false g excl path ts).1, Event.isFile e = true)
    ?_ ?_ ?_ ?_ ?_ ?_ ?_ ?_ ?_ ?_ ?_
  · intro path n sz e he
    simp [visitEntry] at he
    simp [he, Event.isFile]
  · intro path n cs hpg
    exact absurd hpg.1 (by simp)
  · intro path n cs hpg hc
    exact absurd hc (by simp)
  · intro path n cs hpg hc ih e he
    simp only [visitEntry, if_neg hpg, if_neg hc] at he
    exact ih e he
  · intro path n hpg
    exact absurd hpg.1 (by simp)
  · intro path n hpg hc
    exact absurd hc (by simp)
  · intro path n hpg hc e he
    simp only [visitEntry, if_neg hpg, if_neg hc] at he
    simp at he
  · intro path e he
    simp [visitChildren] at he
  · intro path t ts hskip ih e he
    rw [visitChildren, if_pos hskip] at he
    exact ih e he
  · intro path t ts hskip first f hf ih e he
    have hf' : (visitEntry false g excl path t).2 = some f := hf
    rw [visitChildren, if_neg hskip] at he
    simp only [hf'] at he
    exact ih e he
  · intro path t ts hskip first hf ih1 ih2 e he
    have hf' : (visitEntry false g excl path t).2 = none := hf
    rw [visitChildren, if_neg hskip] at he
    simp only [hf', List.mem_append] at he
    rcases he with he | he
    · exact ih1 e he
    · exact ih2 e he

/-- As long as `CREATE_DIR` implies a directory callback is supplied, the walk
never ends in the `g.unwrap()` panic. -/
theorem visit_no_panic (createDir : Bool) (g : Option Unit) (excl : List String)
    (hg : createDir = true → g ≠ none) :
    ∀ (path : List String) (ts : List FsTree),
      (visitChildren createDir g excl path ts).2 ≠ some .unwrapPanic := by
  refine visitChildren.induct createDir g excl
    (fun path t => (visitEntry createDir g excl path t).2 ≠ some .unwrapPanic)
    (fun path ts => (visitChildren createDir g excl path ts).2 ≠ some .unwrapPanic)
    ?_ ?_ ?_ ?_ ?_ ?_ ?_ ?_ ?_ ?_ ?_
  · intro path n sz
    simp [visitEntry]
  · intro path n cs hpg
    exact absurd hpg.2 (hg hpg.1)
  · intro path n cs hpg hc ih
    simpa only [visitEntry, if_neg hpg, if_pos hc] using ih
  · intro path n cs hpg hc ih
    simpa only [visitEntry, if_neg hpg, if_neg hc] using ih
  · intro path n hpg
    exact absurd hpg.2 (hg hpg.1)
  · intro path n hpg hc
    simp [visitEntry, if_neg hpg, if_pos hc]
  · intro path n hpg hc
    simp [visitEntry, if_neg hpg, if_neg hc]
  · intro path
    simp [visitChildren]
  · intro path t ts hskip ih
    rw [visitChildren, if_pos hskip]
    exact ih
  · intro path t ts hskip first f hf ih
    have hf' : (visitEntry createDir g excl path t).2 = some f := hf
    rw [visitChildren, if_neg hskip]
    simp only [hf']
    rw [hf'] at ih
    exact ih
  · intro path t ts hskip first hf ih1 ih2
    have hf' : (visitEntry createDir g excl path t).2 = none := hf
    rw [visitChildren, if_neg hskip]
    simp only [hf']
    exact ih2

/-- C9: the `g.unwrap()` at source line 158 never panics.  At the
`CREATE_DIR = true` call site (`copy_directory_recursive`, line 228) a
directory callback is always supplied (`Some(&|entry| ...)`, line 306), and at
the `CREATE_DIR = false` call site (`get_files_count_recursive`, line 182)
`None` is passed but the unwrap is never reached: in neither configuration
does any walk end in the unwrap panic. -/
theorem c9_unwrap_safe (root : Option FsTree) (rootPath excl : List String) :
    (visit_dir true (some ()) root rootPath excl).2 ≠ some .unwrapPanic
    ∧ (visit_dir false none root rootPath excl).2 ≠ some .unwrapPanic := by
  constructor
  · match root with
    | none => simp [visit_dir]
    | some (.file n sz) => simp [visit_dir]
    | some (.brokenDir n) => simp [visit_dir]
    | some (.dir n cs) =>
      exact visit_no_panic true (some ()) excl (fun _ => by simp) rootPath cs
  · match root with
    | none => simp [visit_dir]
    | some (.file n sz) => simp [visit_dir]
    | some (.brokenDir n) => simp [visit_dir]
    | some (.dir n cs) =>
      exact visit_no_panic false none excl (fun h => by simp at h) rootPath cs

/-- C6: a walk rooted at a path that is not an existing directory (a
nonexistent path, or an existing plain file) is a successful no-op: no visitor
is invoked and no failure is reported (`if dir.is_dir()`, source line 134). -/
theorem c6_root_not_dir (createDir : Bool) (g : Option Unit)
    (rootPath excl : List String) :
    visit_dir createDir g none rootPath excl = ([], none)
    ∧ ∀ (n : String) (sz : Nat),
        visit_dir createDir g (some (.file n sz)) rootPath excl = ([], none) :=
  ⟨rfl, fun _ _ => rfl⟩

/-- Whether `Path::is_dir()` holds of a source, deciding whether
`get_files_count_recursive` spawns a counting thread for it (source line
177).  A directory with an unreadable listing is still a directory. -/
def sourceIsDir : Option FsTree → Bool
  | some (.dir _ _) => true
  | some (.brokenDir _) => true
  | _ => false

/-- `get_files_count_recursive` (source lines 169-198).  Unless the progress
bar is disabled it spawns, for each source that is a directory, a detached
thread running `visit_dir::<false>` over that source with the destination
excluded; the thread's walk outcome (second component: its visitor events and
its possible failure, which `.unwrap()` turns into a panic of that detached
thread only) is never returned to the caller — the function itself only ever
returns `Ok(())` (line 197). -/
def get_files_count_recursive (sources : List (Option FsTree × List String))
    (destPath : List String) (no_progress_bar : Bool) :
    Except Failure Unit × List (List Event × Option Failure) :=
  if no_progress_bar then (Except.ok (), [])
  else
    (Except.ok (),
      (sources.filter (fun s => sourceIsDir s.1)).map
        (fun s => visit_dir false none s.1 s.2 destPath))

/-- C7: a failure of a background counting walk (here: one spawned walk ends
in a failure) is never propagated into the result `get_files_count_recursive`
returns to `main`, so the copy operation's result and the process exit status
are unaffected by any Counter error. -/
theorem c7_counter_isolated (sources : List (Option FsTree × List String))
    (destPath : List String) (npb : Bool)
    (h : ∃ o ∈ (get_files_count_recursive sources destPath npb).2, o.2.isSome) :
    (get_files_count_recursive sources destPath npb).1 = Except.ok () := by
  unfold get_files_count_recursive
  cases npb <;> rfl

/-- Witness for `c7_counter_isolated`: a source directory whose listing fails
makes the background walk fail, yet the function still returns `Ok(())`. -/
theorem c7_counter_isolated_witness :
    (∃ o ∈ (get_files_count_recursive [(some (.brokenDir "s"), ["s"])]
        ["out"] false).2, o.2.isSome)
    ∧ (get_files_count_recursive [(some (.brokenDir "s"), ["s"])]
        ["out"] false).1 = Except.ok () :=
  ⟨by decide, c7_counter_isolated [(some (.brokenDir "s"), ["s"])] ["out"] false (by decide)⟩

/-- A proper extension `q` of `path` that is a prefix of `path ++ [n]` is
`path ++ [n]` itself. -/
theorem between_single {path q : List String} {n : String}
    (hq1 : path <+: q) (hq2 : path ≠ q) (hqe : q <+: path ++ [n]) :
    q = path ++ [n] := by
  rcases prefix_snoc_cases hqe with h | h
  · exact absurd (List.IsPrefix.eq_of_length h
      (Nat.le_antisymm h.length_le hq1.length_le)).symm hq2
  · exact h

/-- Splitting a singleton list around an element. -/
theorem singleton_split {α : Type _} {x e : α} {l₁ l₂ : List α}
    (h : [x] = l₁ ++ e :: l₂) : l₁ = [] ∧ e = x ∧ l₂ = [] := by
  cases l₁ with
  | nil =>
    rw [List.nil_append] at h
    injection h with h1 h2
    exact ⟨rfl, h1.symm, h2.symm⟩
  | cons a as =>
    rw [List.cons_append] at h
    injection h with h1 h2
    exact absurd h2.symm (by simp)

/-- Ordering of copy-mode visitor invocations: the directory callback on a
directory is invoked before any invocation made inside that directory — every
event whose path lies strictly below `q` is preceded in the event list by
`enterDir q` (for `q` strictly below the walk root). -/
theorem visit_dir_before (excl : List String) :
    ∀ (path : List String) (ts : List FsTree) (q : List String),
      path <+: q → path ≠ q →
      ∀ (l₁ : List Event) (e : Event) (l₂ : List Event),
        (visitChildren true (some ()) excl path ts).1 = l₁ ++ e :: l₂ →
        q <+: Event.path e → q ≠ Event.path e → Event.enterDir q ∈ l₁ := by
  refine visitChildren.induct true (some ()) excl
    (fun path t => ∀ q, path <+: q → path ≠ q →
      ∀ l₁ e l₂, (visitEntry true (some ()) excl path t).1 = l₁ ++ e :: l₂ →
        q <+: Event.path e → q ≠ Event.path e → Event.enterDir q ∈ l₁)
    (fun path ts => ∀ q, path <+: q → path ≠ q →
      ∀ l₁ e l₂, (visitChildren true (some ()) excl path ts).1 = l₁ ++ e :: l₂ →
        q <+: Event.path e → q ≠ Event.path e → Event.enterDir q ∈ l₁)
    ?_ ?_ ?_ ?_ ?_ ?_ ?_ ?_ ?_ ?_ ?_
  · intro path n sz q hq1 hq2 l₁ e l₂ hsplit hqe hqe2
    simp only [visitEntry] at hsplit
    rcases singleton_split hsplit with ⟨-, rfl, -⟩
    exact absurd (between_single hq1 hq2 hqe) (by simpa [Event.path] using hqe2)
  · intro path n cs hpg
    exact absurd hpg.2 (by simp)
  · intro path n cs hpg hc ih q hq1 hq2 l₁ e l₂ hsplit hqe hqe2
    simp only [visitEntry, if_neg hpg, if_pos hc] at hsplit
    cases l₁ with
    | nil =>
      rw [List.nil_append] at hsplit
      injection hsplit with h1 h2
      rw [← h1] at hqe hqe2
      exact absurd (between_single hq1 hq2 (by simpa [Event.path, FsTree.name] using hqe))
        (by simpa [Event.path, FsTree.name] using hqe2)
    | cons a as =>
      rw [List.cons_append] at hsplit
      injection hsplit with h1 h2
      have hemem : e ∈ (visitChildren true (some ()) excl (path ++ [n]) cs).1 := by
        rw [h2]
        exact List.mem_append_right as (List.mem_cons_self e l₂)
      rcases visit_paths true (some ()) excl (path ++ [n]) cs e hemem with ⟨m, u, hp⟩
      have hpn : (path ++ [n]) <+: Event.path e := ⟨m :: u, hp.symm⟩
      by_cases hqp : q = path ++ [n]
      · rw [hqp]
        rw [← h1]
        exact List.mem_cons_self _ _
      · have hpq : (path ++ [n]) <+: q := by
          rcases List.prefix_or_prefix_of_prefix hqe hpn with h | h
          · exact absurd (between_single hq1 hq2 h) hqp
          · exact h
        have hne : path ++ [n] ≠ q := fun hcon => hqp hcon.symm
        exact List.mem_cons_of_mem a (ih q hpq hne as e l₂ h2 hqe hqe2)
  · intro path n cs hpg hc
    exact absurd rfl hc
  · intro path n hpg
    exact absurd hpg.2 (by simp)
  · intro path n hpg hc q hq1 hq2 l₁ e l₂ hsplit hqe hqe2
    simp only [visitEntry, if_neg hpg, if_pos hc] at hsplit
    rcases singleton_split hsplit with ⟨-, rfl, -⟩
    exact absurd (between_single hq1 hq2 (by simpa [Event.path, FsTree.name] using hqe))
      (by simpa [Event.path, FsTree.name] using hqe2)
  · intro path n hpg hc
    exact absurd rfl hc
  · intro path q hq1 hq2 l₁ e l₂ hsplit
    rw [visitChildren] at hsplit
    exact absurd hsplit.symm (by simp)
  · intro path t ts hskip ih q hq1 hq2 l₁ e l₂ hsplit hqe hqe2
    rw [visitChildren, if_pos hskip] at hsplit
    exact ih q hq1 hq2 l₁ e l₂ hsplit hqe hqe2
  · intro path t ts hskip first f hf ih q hq1 hq2 l₁ e l₂ hsplit hqe hqe2
    have hf' : (visitEntry true (some ()) excl path t).2 = some f := hf
    rw [visitChildren, if_neg hskip] at hsplit
    simp only [hf'] at hsplit
    exact ih q hq1 hq2 l₁ e l₂ hsplit hqe hqe2
  · intro path t ts hskip first hf ih1 ih2 q hq1 hq2 l₁ e l₂ hsplit hqe hqe2
    have hf' : (visitEntry true (some ()) excl path t).2 = none := hf
    rw [visitChildren, if_neg hskip] at hsplit
    simp only [hf'] at hsplit
    rcases List.append_eq_append_iff.mp hsplit with ⟨a', ha1, ha2⟩ | ⟨c', hc1, hc2⟩
    · rw [ha1]
      exact List.mem_append_right _ (ih2 q hq1 hq2 a' e l₂ ha2 hqe hqe2)
    · cases c' with
      | nil =>
        rw [List.nil_append] at hc2
        exact absurd (ih2 q hq1 hq2 [] e l₂ (by simpa using hc2.symm) hqe hqe2)
          (List.not_mem_nil _)
      | cons y c'' =>
        injection hc2 with h1 h2
        rw [← h1] at hc1
        exact ih1 q hq1 hq2 l₁ e c'' hc1 hqe hqe2

/-- An entry whose name differs from `n` contributes no invocation of the
file callback on the path `path ++ [n]`: its own invocations are all on paths
starting with its own name. -/
theorem entry_count_zero (createDir : Bool) (g : Option Unit) (excl path : List String)
    (t : FsTree) (n : String) (sz : Nat) (hn : FsTree.name t ≠ n) :
    (visitEntry createDir g excl path t).1.count (Event.file (path ++ [n]) sz) = 0 := by
  rw [List.count_eq_zero]
  intro hmem
  cases t with
  | file n' sz' =>
    simp only [visitEntry, List.mem_singleton] at hmem
    injection hmem with h1 h2
    have h3 : [n] = [n'] := List.append_cancel_left h1
    injection h3 with h4 h5
    exact hn (by simpa [FsTree.name] using h4.symm)
  | dir n' cs =>
    have hinner : ¬ Event.file (path ++ [n]) sz ∈
        (visitChildren createDir g excl (path ++ [n']) cs).1 := by
      intro hm
      rcases visit_paths createDir g excl (path ++ [n']) cs _ hm with ⟨m, u, hp⟩
      simp only [Event.path] at hp
      rw [List.append_assoc] at hp
      have h3 := List.append_cancel_left hp
      injection h3 with h4 h5
      exact absurd h5 (by simp)
    by_cases hpg : (createDir = true ∧ g = none)
    · simp [visitEntry, hpg.1, hpg.2] at hmem
    · by_cases hc : createDir = true
      · simp only [visitEntry, if_neg hpg, if_pos hc, List.mem_cons] at hmem
        rcases hmem with hmem | hmem
        · exact Event.noConfusion hmem
        · exact hinner hmem
      · simp only [visitEntry, if_neg hpg, if_neg hc] at hmem
        exact hinner hmem
  | brokenDir n' =>
    by_cases hpg : (createDir = true ∧ g = none)
    · simp [visitEntry, hpg.1, hpg.2] at hmem
    · by_cases hc : createDir = true
      · simp only [visitEntry, if_neg hpg, if_pos hc, List.mem_singleton] at hmem
        exact Event.noConfusion hmem
      · simp [visitEntry, if_neg hpg, if_neg hc] at hmem

/-- If no child of the listed directory is named `n`, the walk makes no file
callback invocation on `path ++ [n]`. -/
theorem children_count_zero (createDir : Bool) (g : Option Unit) (excl : List String)
    (path : List String) (ts : List FsTree) (n : String) (sz : Nat)
    (h : ∀ t' ∈ ts, FsTree.name t' ≠ n) :
    (visitChildren createDir g excl path ts).1.count (Event.file (path ++ [n]) sz) = 0 := by
  induction ts with
  | nil => simp [visitChildren]
  | cons t ts ih =>
    by_cases hskip : path ++ [t.name] = excl
    · rw [visitChildren, if_pos hskip]
      exact ih (fun t' ht' => h t' (List.mem_cons_of_mem t ht'))
    · rw [visitChildren, if_neg hskip]
      cases hf : (visitEntry createDir g excl path t).2 with
      | some f =>
        simp only [hf]
        exact entry_count_zero createDir g excl path t n sz (h t (List.mem_cons_self t ts))
      | none =>
        simp only [hf, List.count_append]
        rw [entry_count_zero createDir g excl path t n sz (h t (List.mem_cons_self t ts)),
          ih (fun t' ht' => h t' (List.mem_cons_of_mem t ht'))]

/-- A file child that is not skipped by the exclusion check receives exactly
one file-callback invocation during a walk of its parent that completes
without failure (its siblings' names are pairwise distinct, as a real
directory listing's are). -/
theorem visit_count_one (createDir : Bool) (g : Option Unit) (excl : List String)
    (path : List String) (ts : List FsTree) (n : String) (sz : Nat)
    (hnd : (ts.map FsTree.name).Nodup) (hmem : FsTree.file n sz ∈ ts)
    (hne : path ++ [n] ≠ excl)
    (hok : (visitChildren createDir g excl path ts).2 = none) :
    (visitChildren createDir g excl path ts).1.count (Event.file (path ++ [n]) sz) = 1 := by
  induction ts with
  | nil => exact absurd hmem (List.not_mem_nil _)
  | cons t ts ih =>
    rw [List.map_cons] at hnd
    rcases List.nodup_cons.mp hnd with ⟨hnotin, hnd'⟩
    by_cases hskip : path ++ [t.name] = excl
    · rw [visitChildren, if_pos hskip] at hok ⊢
      rcases List.mem_cons.mp hmem with heq | hmem'
      · rw [← heq] at hskip
        exact absurd hskip (by simpa [FsTree.name] using hne)
      · exact ih hnd' hmem' hok
    · rw [visitChildren, if_neg hskip] at hok ⊢
      cases hf : (visitEntry createDir g excl path t).2 with
      | some f =>
        simp only [hf] at hok
        simp at hok
      | none =>
        simp only [hf] at hok
        simp only [hf, List.count_append]
        rcases List.mem_cons.mp hmem with heq | hmem'
        · rw [← heq]
          have hsib : ∀ t' ∈ ts, FsTree.name t' ≠ n := by
            intro t' ht' hcon
            refine hnotin ?_
            have hn2 : FsTree.name t = n := by rw [← heq]; rfl
            rw [hn2]
            exact hcon ▸ List.mem_map_of_mem FsTree.name ht'
          rw [children_count_zero createDir g excl path ts n sz hsib]
          simp [visitEntry, List.count_cons]
        · have htn : FsTree.name t ≠ n := by
            intro hcon
            refine hnotin ?_
            rw [hcon]
            exact List.mem_map_of_mem FsTree.name hmem'
          rw [entry_count_zero createDir g excl path t n sz htn, ih hnd' hmem' hok]

/-- C8: contract of the two traversal modes.  For a walk of a directory root
(children `ts`) with exclusion `excl`: (1) in count mode (the
`get_files_count_recursive` call site, `CREATE_DIR = false`) the directory
callback is never invoked — every invocation is of the file callback; (2) in
copy mode (`CREATE_DIR = true` with a directory callback supplied) the
directory callback on a directory `q` is invoked before any invocation made
on entries inside `q`; (3) in both modes a non-directory child that is not
excluded receives exactly one file-callback invocation when the walk
completes without failure. -/
theorem c8_visitor_contract (rn : String) (ts : List FsTree)
    (rootPath excl q : List String) (l₁ : List Event) (e : Event) (l₂ : List Event)
    (n : String) (sz : Nat)
    (hq1 : rootPath <+: q) (hq2 : rootPath ≠ q)
    (hsplit : (visit_dir true (some ()) (some (.dir rn ts)) rootPath excl).1
      = l₁ ++ e :: l₂)
    (hqe : q <+: Event.path e) (hqe2 : q ≠ Event.path e)
    (hnd : (ts.map FsTree.name).Nodup)
    (hmem : FsTree.file n sz ∈ ts) (hn : rootPath ++ [n] ≠ excl)
    (hok1 : (visit_dir true (some ()) (some (.dir rn ts)) rootPath excl).2 = none)
    (hok2 : (visit_dir false none (some (.dir rn ts)) rootPath excl).2 = none) :
    (∀ e' ∈ (visit_dir false none (some (.dir rn ts)) rootPath excl).1,
        Event.isFile e' = true)
    ∧ Event.enterDir q ∈ l₁
    ∧ (visit_dir true (some ()) (some (.dir rn ts)) rootPath excl).1.count
        (Event.file (rootPath ++ [n]) sz) = 1
    ∧ (visit_dir false none (some (.dir rn ts)) rootPath excl).1.count
        (Event.file (rootPath ++ [n]) sz) = 1 := by
  refine ⟨?_, ?_, ?_, ?_⟩
  · exact visit_count_mode none excl rootPath ts
  · exact visit_dir_before excl rootPath ts q hq1 hq2 l₁ e l₂ hsplit hqe hqe2
  · exact visit_count_one true (some ()) excl rootPath ts n sz hnd hmem hn hok1
  · exact visit_count_one false none excl rootPath ts n sz hnd hmem hn hok2

/-- Witness for `c8_visitor_contract` on a concrete tree: the file `a` is
visited exactly once in both modes, the file `d/b` inside directory `d` is
preceded by the directory callback on `d`, and count mode performs only file
invocations. -/
theorem c8_visitor_contract_witness :
    (∀ e' ∈ (visit_dir false none
        (some (.dir "src" [.file "a" 3, .dir "d" [.file "b" 1]])) ["src"] ["zz"]).1,
        Event.isFile e' = true)
    ∧ Event.enterDir ["src", "d"] ∈ [Event.file ["src", "a"] 3, Event.enterDir ["src", "d"]]
    ∧ (visit_dir true (some ())
        (some (.dir "src" [.file "a" 3, .dir "d" [.file "b" 1]])) ["src"] ["zz"]).1.count
        (Event.file (["src"] ++ ["a"]) 3) = 1
    ∧ (visit_dir false none
        (some (.dir "src" [.file "a" 3, .dir "d" [.file "b" 1]])) ["src"] ["zz"]).1.count
        (Event.file (["src"] ++ ["a"]) 3) = 1 :=
  c8_visitor_contract "src" [.file "a" 3, .dir "d" [.file "b" 1]] ["src"] ["zz"]
    ["src", "d"] [Event.file ["src", "a"] 3, Event.enterDir ["src", "d"]]
    (Event.file ["src", "d", "b"] 1) [] "a" 3
    (by decide) (by decide) (by decide) (by decide) (by decide) (by decide)
    (List.mem_cons_self _ _) (by decide) (by decide) (by decide)

/-! ## The flat filesystem world, paths and the primitive operations

The copy visitor and `main` mutate the filesystem, so they are modelled over
an explicit state: a map from absolute canonical paths to nodes.  The
primitive operations (`fs::copy`, `fs::create_dir`, `fs::remove_file`,
`Path::canonicalize`) are modelled from their documented `std` semantics. -/

/-- The error kinds the program distinguishes (`err.kind()` is compared only
against `ErrorKind::AlreadyExists`; every other kind is handled uniformly). -/
inductive IOErrKind where
  | alreadyExists
  | otherErr
deriving DecidableEq, Repr

/-- A filesystem node: a regular file with its byte contents, or a directory. -/
inductive Node where
  | file (contents : List Nat)
  | dir
deriving DecidableEq, Repr

/-- The filesystem state: the current working directory (absolute component
list) and a map from absolute canonical paths to nodes (first match wins,
`insertNode` shadows). -/
structure World where
  cwd : List String
  nodes : List (List String × Node)
deriving DecidableEq, Repr

/-- Look a canonical path up in the world. -/
def lookupNode (w : World) (k : List String) : Option Node :=
  w.nodes.lookup k

/-- Create or overwrite the node at a canonical path. -/
def insertNode (w : World) (k : List String) (n : Node) : World :=
  ⟨w.cwd, (k, n) :: w.nodes⟩

/-- Delete the node at a canonical path. -/
def removeNode (w : World) (k : List String) : World :=
  ⟨w.cwd, w.nodes.filter (fun kv => !(kv.1 == k))⟩

/-- `Path::exists` on a canonical path; the filesystem root `[]` always
exists. -/
def existsW (w : World) (k : List String) : Bool :=
  k.isEmpty || (lookupNode w k).isSome

/-- `Path::is_dir` on a canonical path; the filesystem root is a directory. -/
def isDirW (w : World) (k : List String) : Bool :=
  k.isEmpty || (lookupNode w k == some Node.dir)

/-- Whether the parent of a canonical path is an existing directory. -/
def parentIsDir (w : World) (k : List String) : Bool :=
  isDirW w k.dropLast

/-- Model of `std::fs::create_dir`: `AlreadyExists` when the path already
exists (file or directory), another error when the parent is not an existing
directory, and otherwise the new directory is recorded. -/
def fsCreateDirW (w : World) (k : List String) : Except IOErrKind World :=
  if existsW w k then .error .alreadyExists
  else if parentIsDir w k then .ok (insertNode w k .dir)
  else .error .otherErr

/-- Model of `std::fs::copy` following its documented semantics: read the
source file's contents and write them to the destination, overwriting an
existing destination file (the destination is opened with
create-and-truncate, so an existing regular destination file is NOT an error
— in particular the call never fails with `AlreadyExists`).  It fails when
the source is not a regular file, or when the destination is an existing
directory or its parent is not an existing directory.  Returns the number of
bytes copied. -/
def fsCopyW (w : World) (src dst : List String) : Except IOErrKind (World × Nat) :=
  match lookupNode w src with
  | some (.file c) =>
    match lookupNode w dst with
    | some .dir => .error .otherErr
    | _ =>
      if parentIsDir w dst then .ok (insertNode w dst (.file c), c.length)
      else .error .otherErr
  | _ => .error .otherErr

/-- Model of `std::fs::remove_file`. -/
def fsRemoveW (w : World) (k : List String) : Except IOErrKind World :=
  match lookupNode w k with
  | some (.file _) => .ok (removeNode w k)
  | _ => .error .otherErr

/-- A path as written on the command line: whether it is absolute, and its
components.  The model has no `..` components; `.` components are removed by
`resolveW`. -/
structure RPath where
  abs : Bool
  comps : List String
deriving DecidableEq, Repr

/-- `Path::join`: joining an absolute path replaces the base entirely. -/
def RPath.join (a b : RPath) : RPath :=
  if b.abs then b else ⟨a.abs, a.comps ++ b.comps⟩

/-- `Path::parent`: `None` for `/` and for the empty path, otherwise the path
without its last component. -/
def RPath.parent? (p : RPath) : Option RPath :=
  match p.comps with
  | [] => none
  | _ => some ⟨p.abs, p.comps.dropLast⟩

/-- `Path::strip_prefix`: succeeds when `base` is a prefix of `p` (same
absoluteness), yielding the relative remainder. -/
def RPath.stripPref (p base : RPath) : Option RPath :=
  if base.abs = p.abs ∧ base.comps <+: p.comps then
    some ⟨false, p.comps.drop base.comps.length⟩
  else none

/-- The path `/`. -/
def rootRPath : RPath := ⟨true, []⟩

/-- The path `.` as compared against by string equality in `main`. -/
def dotPath : RPath := ⟨false, ["."]⟩

/-- The absolute canonical component list a command-line path stands for
(relative paths are below the current working directory; `.` components
vanish). -/
def resolveW (w : World) (p : RPath) : List String :=
  (if p.abs then p.comps else w.cwd ++ p.comps).filter (fun c => !(c == "."))

/-- Model of `Path::canonicalize`: the resolved absolute path when the path
exists, an error otherwise. -/
def canonW (w : World) (p : RPath) : Except IOErrKind (List String) :=
  if existsW w (resolveW w p) then .ok (resolveW w p) else .error .otherErr

/-- The mirrored destination root computed by `copy_directory_recursive`
(source lines 208-214): `destination` joined with
`source.strip_prefix(source.parent().unwrap_or("/")).unwrap()` when the
source is absolute, and joined with the source path exactly as given when it
is relative.  (The `unwrap` never fires: a path's parent is a prefix of it.) -/
def makeDestination (source destination : RPath) : RPath :=
  RPath.join destination <|
    if source.abs then
      match source.stripPref (source.parent?.getD rootRPath) with
      | some r => r
      | none => ⟨false, []⟩
    else source

/-- A filesystem write performed by the program, as recorded by the model. -/
inductive WriteOp where
  | createDir (k : List String)
  | copyFile (src dst : List String) (bytes : Nat)
  | dispatchCopyDir (source destination : RPath)
deriving DecidableEq, Repr

/-- The distinguishable error outcomes of `main` and of the copy engine.
`configError` carries the literal message attached to the report. -/
inductive MainErr where
  | canonicalizeFailed
  | createDestFailed
  | configError (msg : String)
  | destNotDirectory
  | mirrorRootFailed
  | copyFailed
  | panicked
deriving DecidableEq, Repr

/-- The `fs::create_dir(&make_destination)` match of
`copy_directory_recursive` (source lines 215-226): tolerate `AlreadyExists`,
fail on any other creation error; the writes performed are returned with the
new world. -/
def createMirrorRoot (w : World) (source destination : RPath) :
    Except MainErr (World × List WriteOp) :=
  match fsCreateDirW w (resolveW w (makeDestination source destination)) with
  | .ok w' => .ok (w', [.createDir (resolveW w (makeDestination source destination))])
  | .error .alreadyExists => .ok (w, [])
  | .error _ => .error .mirrorRootFailed

/-- `Path::parent` of a path with at least one component drops the last
component. -/
theorem RPath.parent?_eq {p : RPath} (h : p.comps ≠ []) :
    RPath.parent? p = some ⟨p.abs, p.comps.dropLast⟩ := by
  rcases p with ⟨a, comps⟩
  cases comps with
  | nil => exact absurd rfl h
  | cons x xs => rfl

/-- C2 counterexample: for the relative multi-component source `x/y` and
destination `d`, the mirrored destination root is `d/x/y` — the destination
joined with the whole source path — and not `d/y`, the destination joined
with the source's last path segment. -/
theorem c2_counterexample :
    makeDestination ⟨false, ["x", "y"]⟩ ⟨false, ["d"]⟩ = ⟨false, ["d", "x", "y"]⟩
    ∧ makeDestination ⟨false, ["x", "y"]⟩ ⟨false, ["d"]⟩
        ≠ RPath.join ⟨false, ["d"]⟩ ⟨false, ["y"]⟩ := by
  constructor
  · rfl
  · decide

/-- C2 as amended: the mirrored destination root is the destination joined
with the source's last path segment only for an absolute source; for a
relative source it is the destination joined with the whole source path as
given.  The directory is then created tolerating "already exists" (no write,
success), performing the creation when possible, and failing on any other
creation error. -/
theorem c2_amended (src dst : RPath) (w : World) (n : String)
    (hn : src.comps.getLast? = some n) :
    makeDestination src dst = RPath.join dst (if src.abs then ⟨false, [n]⟩ else src)
    ∧ (existsW w (resolveW w (makeDestination src dst)) = true →
        createMirrorRoot w src dst = .ok (w, []))
    ∧ (existsW w (resolveW w (makeDestination src dst)) = false →
        parentIsDir w (resolveW w (makeDestination src dst)) = true →
        createMirrorRoot w src dst
          = .ok (insertNode w (resolveW w (makeDestination src dst)) .dir,
              [.createDir (resolveW w (makeDestination src dst))]))
    ∧ (existsW w (resolveW w (makeDestination src dst)) = false →
        parentIsDir w (resolveW w (makeDestination src dst)) = false →
        createMirrorRoot w src dst = .error .mirrorRootFailed) := by
  rcases List.getLast?_eq_some_iff.mp hn with ⟨ys, hys⟩
  refine ⟨?_, ?_, ?_, ?_⟩
  · unfold makeDestination
    by_cases hab : src.abs
    · rw [if_pos hab, if_pos hab]
      rcases src with ⟨sabs, scomps⟩
      simp only at hys
      subst hys
      have hpar : RPath.parent? ⟨sabs, ys ++ [n]⟩ = some ⟨sabs, ys⟩ := by
        rw [RPath.parent?_eq (by simp)]
        simp
      rw [hpar]
      simp only [Option.getD_some]
      have hsp : RPath.stripPref ⟨sabs, ys ++ [n]⟩ ⟨sabs, ys⟩ = some ⟨false, [n]⟩ := by
        unfold RPath.stripPref
        rw [if_pos ⟨rfl, ⟨[n], rfl⟩⟩]
        simp [List.drop_left]
      rw [hsp]
    · rw [if_neg hab, if_neg hab]
  · intro hex
    simp [createMirrorRoot, fsCreateDirW, hex]
  · intro hex hpar
    simp [createMirrorRoot, fsCreateDirW, hex, hpar]
  · intro hex hpar
    simp [createMirrorRoot, fsCreateDirW, hex, hpar]

/-- World for the `c2_amended` witness: destination `d` and intermediate
directory `d/x` exist, the mirrored root `d/x/y` does not. -/
def c2World : World := ⟨[], [(["d"], .dir), (["d", "x"], .dir)]⟩

/-- Witness for `c2_amended`: the relative source `x/y` mirrored into `d`
yields the root `d/x/y`, which gets created. -/
theorem c2_amended_witness :
    makeDestination ⟨false, ["x", "y"]⟩ ⟨false, ["d"]⟩
      = RPath.join ⟨false, ["d"]⟩
          (if (⟨false, ["x", "y"]⟩ : RPath).abs then ⟨false, ["y"]⟩ else ⟨false, ["x", "y"]⟩)
    ∧ createMirrorRoot c2World ⟨false, ["x", "y"]⟩ ⟨false, ["d"]⟩
      = .ok (insertNode c2World
          (resolveW c2World (makeDestination ⟨false, ["x", "y"]⟩ ⟨false, ["d"]⟩)) .dir,
          [.createDir (resolveW c2World
            (makeDestination ⟨false, ["x", "y"]⟩ ⟨false, ["d"]⟩))]) :=
  ⟨(c2_amended ⟨false, ["x", "y"]⟩ ⟨false, ["d"]⟩ c2World "y" (by decide)).1,
   (c2_amended ⟨false, ["x", "y"]⟩ ⟨false, ["d"]⟩ c2World "y" (by decide)).2.2.1
     (by decide) (by decide)⟩

/-! ## The per-file copy visitor -/

/-- The filesystem primitives the per-file visitor of
`copy_directory_recursive` invokes, abstracted over the state `σ` so the
visitor's branching can be analysed under every outcome the primitives can
report: `copyFile` is `fs::copy(entry.path(), &destination)` (byte count on
success), `entryLen` and `destLen` are the two `metadata().len()` reads, and
`removeDest` is `fs::remove_file(&destination)`. -/
structure FsOps (σ : Type) where
  copyFile : σ → Except IOErrKind (σ × Nat)
  entryLen : σ → Except IOErrKind Nat
  destLen : σ → Except IOErrKind Nat
  removeDest : σ → Except IOErrKind σ

/-- What one run of the per-file visitor did: the resulting state, how many
bytes this run copied, whether it deleted the existing destination, and
whether it took the equal-size skip. -/
structure FileVisitOut (σ : Type) where
  state : σ
  bytesWritten : Nat
  removedDest : Bool
  sizeSkip : Bool

/-- The error outcomes of one visitor run (each aborts the whole copy). -/
inductive VisitErr where
  | metaErr
  | removeErr
  | copyErr
deriving DecidableEq, Repr

/-- The per-file visitor of `copy_directory_recursive` (source lines
231-305), with the cosmetic `noise` print and progress-bar updates omitted:
try `fs::copy`; on success the file was written.  If the copy failed with
`ErrorKind::AlreadyExists`, read both sizes (lines 255-270); if they differ,
remove the destination and copy again (lines 271-288); if they are equal,
fall through — the file is treated as already copied (the `if` at line 271
has no else branch).  Any other copy failure aborts (lines 290-297). -/
def onFileVisit {σ : Type} (ops : FsOps σ) (s : σ) : Except VisitErr (FileVisitOut σ) :=
  match ops.copyFile s with
  | .ok (s', bytes) => .ok ⟨s', bytes, false, false⟩
  | .error .alreadyExists =>
    match ops.entryLen s with
    | .error _ => .error .metaErr
    | .ok entry_len =>
      match ops.destLen s with
      | .error _ => .error .metaErr
      | .ok destination_len =>
        if entry_len ≠ destination_len then
          match ops.removeDest s with
          | .error _ => .error .removeErr
          | .ok s' =>
            match ops.copyFile s' with
            | .ok (s'', bytes) => .ok ⟨s'', bytes, true, false⟩
            | .error _ => .error .copyErr
        else .ok ⟨s, 0, false, true⟩
  | .error _ => .error .copyErr

/-- C1: when the copy of a file reports that the destination file already
exists, the visitor compares source and destination file sizes: equal sizes
mean the file is skipped — success, nothing deleted, zero bytes copied, state
unchanged; different sizes mean the existing destination file is deleted and
the source copied again.  This visitor is the `f` that `visit_dir` applies to
every file visited during `copy_directory_recursive`. -/
theorem c1_skip_or_recopy {σ : Type} (ops : FsOps σ) (s s' s'' : σ)
    (el dl bytes : Nat)
    (hc : ops.copyFile s = .error .alreadyExists)
    (hel : ops.entryLen s = .ok el) (hdl : ops.destLen s = .ok dl)
    (hr : ops.removeDest s = .ok s') (hc2 : ops.copyFile s' = .ok (s'', bytes)) :
    (el = dl → onFileVisit ops s = .ok ⟨s, 0, false, true⟩)
    ∧ (el ≠ dl → onFileVisit ops s = .ok ⟨s'', bytes, true, false⟩) := by
  constructor
  · intro heq
    simp [onFileVisit, hc, hel, hdl, heq]
  · intro hne
    simp [onFileVisit, hc, hel, hdl, hne, hr, hc2]

/-- Concrete primitives for the `c1_skip_or_recopy` witness over the state
space `Bool` (`false` before the removal, `true` after): the first copy
reports an existing destination, the sizes 3 and 7 differ, removal succeeds
and the re-copy writes 5 bytes. -/
def c1Ops : FsOps Bool where
  copyFile := fun b => if b then .ok (true, 5) else .error .alreadyExists
  entryLen := fun _ => .ok 3
  destLen := fun _ => .ok 7
  removeDest := fun _ => .ok true

/-- Witness for `c1_skip_or_recopy`: with different sizes the destination is
deleted and re-copied. -/
theorem c1_skip_or_recopy_witness :
    (3 : Nat) ≠ 7 ∧ onFileVisit c1Ops false = .ok ⟨true, 5, true, false⟩ :=
  ⟨by decide,
   (c1_skip_or_recopy c1Ops false true true 3 7 5 rfl rfl rfl rfl rfl).2 (by decide)⟩

/-- The visitor's primitives instantiated with the modelled `std` filesystem
semantics, for a fixed source entry path and destination path. -/
def stdFsOps (src dst : List String) : FsOps World where
  copyFile := fun w => fsCopyW w src dst
  entryLen := fun w =>
    match lookupNode w src with
    | some (.file c) => .ok c.length
    | _ => .error .otherErr
  destLen := fun w =>
    match lookupNode w dst with
    | some (.file c) => .ok c.length
    | _ => .error .otherErr
  removeDest := fun w => fsRemoveW w dst

/-- A second run's state: source file `a/x` holds bytes `[7, 8, 9]` and its
destination mirror `out/a/x` already holds the identical bytes. -/
def secondRunWorld : World :=
  ⟨[], [(["a"], .dir), (["a", "x"], .file [7, 8, 9]),
    (["out"], .dir), (["out", "a"], .dir), (["out", "a", "x"], .file [7, 8, 9])]⟩

/-- C4 at the failing input: on the second run, the visitor applied to a file
whose destination already exists with identical size (and contents) does NOT
take the size-match skip — `std::fs::copy` overwrites the existing
destination and reports success, so all 3 bytes are re-copied
(`bytesWritten = 3`, `sizeSkip = false`), even though the destination's
contents are unchanged; and the `AlreadyExists` branch that would implement
the skip is unreachable: the modelled `fs::copy` never reports
`AlreadyExists`. -/
theorem c4_no_size_skip :
    onFileVisit (stdFsOps ["a", "x"] ["out", "a", "x"]) secondRunWorld
      = .ok ⟨insertNode secondRunWorld ["out", "a", "x"] (.file [7, 8, 9]), 3, false, false⟩
    ∧ lookupNode (insertNode secondRunWorld ["out", "a", "x"] (.file [7, 8, 9]))
        ["out", "a", "x"] = lookupNode secondRunWorld ["out", "a", "x"]
    ∧ (∀ (w : World) (s d : List String), fsCopyW w s d ≠ .error .alreadyExists) := by
  refine ⟨rfl, rfl, ?_⟩
  intro w s d
  unfold fsCopyW
  split
  · split
    · simp
    · split <;> simp
  · simp

/-! ## The orchestration in `main` -/

/-- The parsed command line (source lines 13-26). -/
structure Command where
  sources : List RPath
  destination : RPath
  recursive : Bool
  noise : Bool
  no_progress_bar : Bool

/-- Target selection of `main`'s plain-file branch (source lines 107-111):
the destination joined with the source path as given when the destination is
a directory, the destination path itself otherwise. -/
def fileCopyTarget (w : World) (destination source : RPath) : RPath :=
  if isDirW w (resolveW w destination) then RPath.join destination source
  else destination

/-- The per-source loop of `main` (source lines 73-123): canonicalize the
source and the destination (`?` propagates failure, modelled as
`canonicalizeFailed`); skip a source whose canonical path equals the
destination's; for a directory source require the recursive flag (else the
configuration error with its literal message) and a directory destination
(else `destNotDirectory`), then dispatch to `copy_directory_recursive`
(recorded as a `dispatchCopyDir` write — the engine itself is modelled
separately by `visit_dir`, `createMirrorRoot` and `onFileVisit`); for a
plain-file source run `fs::copy` to `fileCopyTarget`, recording the copy or
propagating its failure. -/
def mainLoop (w : World) (destination : RPath) (recursive : Bool) :
    List RPath → List WriteOp × Except MainErr Unit
  | [] => ([], .ok ())
  | source :: rest =>
    match canonW w source, canonW w destination with
    | .ok cs, .ok cd =>
      if cs = cd then mainLoop w destination recursive rest
      else if isDirW w (resolveW w source) then
        if ¬ recursive then
          ([], .error (.configError "cannot copy a directory without recursive process."))
        else if ¬ isDirW w (resolveW w destination) then
          ([], .error .destNotDirectory)
        else
          let r := mainLoop w destination recursive rest
          (.dispatchCopyDir source destination :: r.1, r.2)
      else
        match fsCopyW w (resolveW w source)
            (resolveW w (fileCopyTarget w destination source)) with
        | .ok (w2, bytes) =>
          let r := mainLoop w2 destination recursive rest
          (.copyFile (resolveW w source)
            (resolveW w (fileCopyTarget w destination source)) bytes :: r.1, r.2)
        | .error _ => ([], .error .copyFailed)
    | _, _ => ([], .error .canonicalizeFailed)

/-- `main` (source lines 32-126): default the destination (`.` with a single
source becomes the current directory joined with the source's file name,
lines 35-45), create the destination directory when it does not exist (lines
46-53, recorded as a write), then run the per-source loop.  The
`get_files_count_recursive` call between those two steps (line 66) performs
no filesystem writes and always returns `Ok(())` — see
`get_files_count_recursive` — so it does not appear in the state model.
Returns the writes performed and the overall result. -/
def mainModel (w : World) (c : Command) : List WriteOp × Except MainErr Unit :=
  match
    (if c.destination = dotPath ∧ c.sources.length = 1 then
      match (c.sources.headD dotPath).comps.getLast? with
      | some base => Except.ok (⟨true, w.cwd ++ [base]⟩ : RPath)
      | none => Except.error MainErr.panicked
    else Except.ok c.destination) with
  | .error e => ([], .error e)
  | .ok destination =>
    if existsW w (resolveW w destination) then
      mainLoop w destination c.recursive c.sources
    else
      match fsCreateDirW w (resolveW w destination) with
      | .ok w2 =>
        let r := mainLoop w2 destination c.recursive c.sources
        (.createDir (resolveW w destination) :: r.1, r.2)
      | .error _ => ([], .error .createDestFailed)

/-- World for the C5 counterexample: the directory source `d` exists, the
destination `out` does not. -/
def c5World : World := ⟨[], [(["d"], .dir)]⟩

/-- Command for the C5 counterexample: one directory source `d`, destination
`out`, recursive flag not set. -/
def c5Cmd : Command := ⟨[⟨false, ["d"]⟩], ⟨false, ["out"]⟩, false, false, false⟩

/-- C5 counterexample: a directory source without the recursive flag does
fail with the configuration error, but with a nonexistent destination the
program has already created the destination directory — a filesystem write —
before that check fires, so "performs zero filesystem writes" is false. -/
theorem c5_counterexample :
    (mainModel c5World c5Cmd).2
      = .error (.configError "cannot copy a directory without recursive process.")
    ∧ (mainModel c5World c5Cmd).1 = [.createDir ["out"]]
    ∧ (mainModel c5World c5Cmd).1 ≠ [] :=
  ⟨rfl, rfl, by decide⟩

/-- C5 as amended: a directory source processed with the recursive flag unset
fails with the configuration error "cannot copy a directory without recursive
process."; zero filesystem writes are guaranteed only when the destination
already exists and the directory is the first source processed — otherwise
the program may already have created the missing destination directory (and
copied earlier plain-file sources) before aborting. -/
theorem c5_amended (w : World) (source destination : RPath) (rest : List RPath)
    (noise npb : Bool) (cs cd : List String)
    (hdot : ¬ (destination = dotPath ∧ (source :: rest).length = 1))
    (hex : existsW w (resolveW w destination) = true)
    (h1 : canonW w source = .ok cs) (h2 : canonW w destination = .ok cd)
    (hne : cs ≠ cd) (hdir : isDirW w (resolveW w source) = true) :
    mainModel w ⟨source :: rest, destination, false, noise, npb⟩
      = ([], .error (.configError "cannot copy a directory without recursive process.")) := by
  unfold mainModel
  rw [if_neg hdot]
  simp only [hex, if_true, mainLoop, h1, h2, if_neg hne, hdir]
  simp

/-- World for the `c5_amended` witness: both the directory source `d` and the
destination `out` exist. -/
def c5WitnessWorld : World := ⟨[], [(["d"], .dir), (["out"], .dir)]⟩

/-- Witness for `c5_amended`: with an existing destination and the directory
as only source, the run fails with the configuration error and performs no
writes. -/
theorem c5_amended_witness :
    mainModel c5WitnessWorld ⟨[⟨false, ["d"]⟩], ⟨false, ["out"]⟩, false, false, false⟩
      = ([], .error (.configError "cannot copy a directory without recursive process.")) :=
  c5_amended c5WitnessWorld ⟨false, ["d"]⟩ ⟨false, ["out"]⟩ [] false false ["d"] ["out"]
    (by decide) rfl rfl rfl (by decide) rfl

/-- C10: for a plain-file source, when the destination is an existing
directory the copy target is the destination joined with the source path
exactly as given on the command line — for a relative source every leading
component reappears below the destination — and the run fails when the
intermediate directories below the destination do not exist; when the
destination is not a directory, the destination path itself is the target
file. -/
theorem c10_file_target (w : World) (source destination : RPath) (cs cd : List String)
    (recursive noise npb : Bool)
    (hdot : destination ≠ dotPath)
    (hex : existsW w (resolveW w destination) = true)
    (h1 : canonW w source = .ok cs) (h2 : canonW w destination = .ok cd)
    (hne : cs ≠ cd)
    (hnotdir : isDirW w (resolveW w source) = false) :
    (isDirW w (resolveW w destination) = true →
      fileCopyTarget w destination source = RPath.join destination source
      ∧ (source.abs = false →
          (fileCopyTarget w destination source).comps
            = destination.comps ++ source.comps)
      ∧ (∀ e, fsCopyW w (resolveW w source)
            (resolveW w (RPath.join destination source)) = .error e →
          mainModel w ⟨[source], destination, recursive, noise, npb⟩
            = ([], .error .copyFailed))
      ∧ (∀ w2 bytes, fsCopyW w (resolveW w source)
            (resolveW w (RPath.join destination source)) = .ok (w2, bytes) →
          mainModel w ⟨[source], destination, recursive, noise, npb⟩
            = ([.copyFile (resolveW w source)
                (resolveW w (RPath.join destination source)) bytes], .ok ())))
    ∧ (isDirW w (resolveW w destination) = false →
        fileCopyTarget w destination source = destination) := by
  have hdot' : ¬ (destination = dotPath ∧ ([source] : List RPath).length = 1) :=
    fun hcon => hdot hcon.1
  constructor
  · intro hdd
    have htgt : fileCopyTarget w destination source = RPath.join destination source := by
      unfold fileCopyTarget
      rw [if_pos hdd]
    refine ⟨htgt, ?_, ?_, ?_⟩
    · intro habs
      rw [htgt]
      unfold RPath.join
      rw [if_neg (by simp [habs])]
    · intro e he
      unfold mainModel
      rw [if_neg hdot']
      simp only [hex, if_true, mainLoop, h1, h2, if_neg hne, hnotdir, htgt, he]
      simp
    · intro w2 bytes hok
      unfold mainModel
      rw [if_neg hdot']
      simp only [hex, if_true, mainLoop, h1, h2, if_neg hne, hnotdir, htgt, hok]
      simp [mainLoop]
  · intro hdd
    unfold fileCopyTarget
    rw [if_neg (by simp [hdd])]

/-- World for the `c10_file_target` witness: file `sub/f`, destination
directory `dst`; the intermediate `dst/sub` does not exist. -/
def c10World : World :=
  ⟨[], [(["sub"], .dir), (["sub", "f"], .file [1]), (["dst"], .dir)]⟩

/-- Witness for `c10_file_target`: copying `sub/f` into the directory `dst`
targets `dst/sub/f` (the whole relative source path, not just `f`), and the
run fails because `dst/sub` does not exist. -/
theorem c10_file_target_witness :
    (fileCopyTarget c10World ⟨false, ["dst"]⟩ ⟨false, ["sub", "f"]⟩).comps
      = (⟨false, ["dst"]⟩ : RPath).comps ++ (⟨false, ["sub", "f"]⟩ : RPath).comps
    ∧ mainModel c10World
        ⟨[⟨false, ["sub", "f"]⟩], ⟨false, ["dst"]⟩, false, false, false⟩
      = ([], .error .copyFailed) := by
  have h := c10_file_target c10World ⟨false, ["sub", "f"]⟩ ⟨false, ["dst"]⟩
    ["sub", "f"] ["dst"] false false false (by decide) rfl rfl rfl (by decide) rfl
  have hA := h.1 rfl
  exact ⟨hA.2.1 rfl, hA.2.2.1 IOErrKind.otherErr rfl⟩

end Antig
